import Mathlib

/-!
Verification of the golem-llm OpenAI provider (src/llm/openai).

This file shallowly embeds the provider's pure core in Lean 4:

* the provider-agnostic conversation model (the golem:llm WIT types used by
  the source, namespace Llm);
* the OpenAI wire types from src/llm/openai/src/client.rs (namespace Client);
* the request/response conversions from src/llm/openai/src/conversions.rs;
* the streaming decoder state machine from src/llm/openai/src/lib.rs
  (decode_message and its fragment-accumulation state);
* the resumption builder retry_prompt from src/llm/openai/src/lib.rs.

Modelling conventions: Rust strings in frame position are modelled as
List Char so that the prefix tests of decode_message compute structurally;
strings held inside values stay String.  serde_json parsing is an external
collaborator and is passed in as an explicit parse function.  Rust u64/u32
become Nat; f32 config fields become Float values that are only carried,
never computed with.  Interior mutability (RefCell) in OpenAIChatStream is
modelled by explicit state passing over StreamState, the decode-relevant
subset of the stream struct (the transport handle and construction-time
failure are external concerns).
-/

namespace Llm

/-- Image detail hint, golem:llm image-detail. -/
inductive ImageDetail where
  | Auto
  | Low
  | High
deriving DecidableEq

/-- golem:llm image-url reference. -/
structure ImageUrlRef where
  url : String
  detail : Option ImageDetail
deriving DecidableEq

/-- golem:llm image-source: inline raw bytes (modelled as List Nat) plus mime type. -/
structure ImageSource where
  data : List Nat
  mime_type : String
  detail : Option ImageDetail
deriving DecidableEq

/-- golem:llm image-reference. -/
inductive ImageReference where
  | Url (u : ImageUrlRef)
  | Inline (s : ImageSource)
deriving DecidableEq

/-- golem:llm content-part. -/
inductive ContentPart where
  | Text (t : String)
  | Image (r : ImageReference)
deriving DecidableEq

/-- golem:llm role. -/
inductive Role where
  | User
  | Assistant
  | System
  | Tool
deriving DecidableEq

/-- golem:llm message. -/
structure Message where
  role : Role
  name : Option String
  content : List ContentPart
deriving DecidableEq

/-- golem:llm tool-call: arguments held as a JSON-encoded string. -/
structure ToolCall where
  id : String
  name : String
  arguments_json : String
deriving DecidableEq

/-- golem:llm tool-definition. -/
structure ToolDefinition where
  name : String
  description : Option String
  parameters_schema : String
deriving DecidableEq

/-- golem:llm tool-success payload. -/
structure ToolSuccess where
  id : String
  name : String
  result_json : String
deriving DecidableEq

/-- golem:llm tool-failure payload. -/
structure ToolFailure where
  id : String
  name : String
  error_message : String
deriving DecidableEq

/-- golem:llm tool-result. -/
inductive ToolResult where
  | Success (s : ToolSuccess)
  | Error (f : ToolFailure)
deriving DecidableEq

/-- golem:llm finish-reason. -/
inductive FinishReason where
  | Stop
  | Length
  | ToolCalls
  | ContentFilter
deriving DecidableEq

/-- golem:llm usage. -/
structure Usage where
  input_tokens : Option Nat
  output_tokens : Option Nat
  total_tokens : Option Nat
deriving DecidableEq

/-- golem:llm response-metadata. -/
structure ResponseMetadata where
  finish_reason : Option FinishReason
  usage : Option Usage
  provider_id : Option String
  timestamp : Option String
  provider_metadata_json : Option String
deriving DecidableEq

/-- golem:llm error-code (the source only constructs InternalError itself). -/
inductive ErrorCode where
  | InvalidRequest
  | AuthenticationFailed
  | RateLimitExceeded
  | InternalError
  | Unsupported
deriving DecidableEq

/-- golem:llm error. -/
structure Error where
  code : ErrorCode
  message : String
  provider_error_json : Option String
deriving DecidableEq

/-- golem:llm complete-response. -/
structure CompleteResponse where
  id : String
  content : List ContentPart
  tool_calls : List ToolCall
  metadata : ResponseMetadata
deriving DecidableEq

/-- golem:llm chat-event. -/
inductive ChatEvent where
  | Message (r : CompleteResponse)
  | ToolRequest (l : List ToolCall)
  | Error (e : Error)
deriving DecidableEq

/-- golem:llm stream-delta. -/
structure StreamDelta where
  content : Option (List ContentPart)
  tool_calls : Option (List ToolCall)
deriving DecidableEq

/-- golem:llm stream-event. -/
inductive StreamEvent where
  | Delta (d : StreamDelta)
  | Finish (m : ResponseMetadata)
  | Error (e : Error)
deriving DecidableEq

/-- golem:llm config (kv options become an ordered key/value list). -/
structure Config where
  model : String
  temperature : Option Float
  max_tokens : Option Nat
  stop_sequences : Option (List String)
  tools : List ToolDefinition
  tool_choice : Option String
  provider_options : List (String × String)

end Llm

open Llm

namespace Client

/-- client.rs Detail. -/
inductive Detail where
  | Auto
  | Low
  | High
deriving DecidableEq

/-- client.rs ImageUrl. -/
structure ImageUrl where
  url : String
  detail : Option Detail
deriving DecidableEq

/-- client.rs ContentPart (tagged text / image_url inputs). -/
inductive ContentPart where
  | TextInput (text : String)
  | ImageInput (image_url : ImageUrl)
deriving DecidableEq

/-- client.rs Content (untagged: plain text or a list of parts). -/
inductive Content where
  | TextInput (s : String)
  | List (l : List ContentPart)
deriving DecidableEq

/-- client.rs FunctionCall. -/
structure FunctionCall where
  arguments : String
  name : String
deriving DecidableEq

/-- client.rs ToolCall. -/
inductive ToolCall where
  | Function (function : FunctionCall) (id : String) (index : Option Nat)
deriving DecidableEq

/-- client.rs Message (system / user / assistant / tool wire roles). -/
inductive Message where
  | System (content : Content) (name : Option String)
  | User (content : Content) (name : Option String)
  | Assistant (content : Option Content) (name : Option String)
      (tool_calls : Option (List ToolCall))
  | Tool (content : Content) (name : Option String) (tool_call_id : String)
deriving DecidableEq

/-- client.rs Function; the parameters JSON value is the abstract type V. -/
structure Function (V : Type) where
  name : String
  description : Option String
  parameters : Option V

/-- client.rs Tool. -/
inductive Tool (V : Type) where
  | Function (function : Client.Function V)

/-- client.rs StreamOptions. -/
structure StreamOptions where
  include_usage : Bool
deriving DecidableEq

/-- client.rs CompletionsRequest (f32 fields carried as Float). -/
structure CompletionsRequest (V : Type) where
  messages : List Client.Message
  model : String
  frequency_penalty : Option Float
  max_completion_tokens : Option Nat
  n : Option Nat
  presence_penalty : Option Float
  seed : Option Nat
  stop : Option (List String)
  stream : Option Bool
  stream_options : Option StreamOptions
  temperature : Option Float
  tool_choice : Option String
  tools : List (Client.Tool V)
  top_logprobs : Option Nat
  top_p : Option Float
  user : Option String

/-- client.rs FinishReason. -/
inductive FinishReason where
  | Stop
  | Length
  | ToolCalls
  | ContentFilter
deriving DecidableEq

/-- client.rs Usage. -/
structure Usage where
  completion_tokens : Nat
  prompt_tokens : Nat
  total_tokens : Nat
deriving DecidableEq

/-- client.rs ResponseMessage. -/
structure ResponseMessage where
  content : Option String
  refusal : Option String
  role : String
  tool_calls : Option (List Client.ToolCall)
deriving DecidableEq

/-- client.rs Choice. -/
structure Choice where
  finish_reason : Option Client.FinishReason
  index : Nat
  message : ResponseMessage
deriving DecidableEq

/-- client.rs CompletionsResponse. -/
structure CompletionsResponse where
  choices : List Choice
  created : Nat
  id : String
  model : String
  system_fingerprint : Option String
  usage : Option Client.Usage
deriving DecidableEq

/-- client.rs ChoiceDelta. -/
structure ChoiceDelta where
  content : Option String
  tool_calls : Option (List Client.ToolCall)
  role : Option String
deriving DecidableEq

/-- client.rs ChoiceChunk. -/
structure ChoiceChunk where
  index : Nat
  delta : ChoiceDelta
  finish_reason : Option Client.FinishReason
deriving DecidableEq

/-- client.rs ChatCompletionChunk. -/
structure ChatCompletionChunk where
  id : String
  created : Nat
  model : String
  choices : List ChoiceChunk
  usage : Option Client.Usage
  system_fingerprint : Option String
deriving DecidableEq

end Client

/-- conversions.rs convert_finish_reason. -/
def convert_finish_reason : Client.FinishReason → FinishReason
  | Client.FinishReason.Stop => FinishReason.Stop
  | Client.FinishReason.Length => FinishReason.Length
  | Client.FinishReason.ToolCalls => FinishReason.ToolCalls
  | Client.FinishReason.ContentFilter => FinishReason.ContentFilter

/-- conversions.rs convert_usage. -/
def convert_usage (value : Client.Usage) : Usage :=
  { input_tokens := some value.prompt_tokens
    output_tokens := some value.completion_tokens
    total_tokens := some value.total_tokens }

/-- conversions.rs convert_tool_call. -/
def convert_tool_call : Client.ToolCall → ToolCall
  | Client.ToolCall.Function function id _ =>
    { id := id, name := function.name, arguments_json := function.arguments }

/-- conversions.rs From ImageDetail for Detail. -/
def detailFromImageDetail : ImageDetail → Client.Detail
  | ImageDetail.Auto => Client.Detail.Auto
  | ImageDetail.Low => Client.Detail.Low
  | ImageDetail.High => Client.Detail.High

/-- The RFC 4648 standard base64 alphabet, as used by the base64 crate's
general_purpose::STANDARD engine invoked in conversions.rs. -/
def base64Alphabet : List Char :=
  "ABCDEFGHIJKLMNOPQRSTUVWXYZabcdefghijklmnopqrstuvwxyz0123456789+/".data

/-- One base64 digit. -/
def b64Digit (n : Nat) : Char := base64Alphabet.getD n 'A'

/-- Standard base64 with padding over raw bytes (each byte a Nat < 256),
modelling general_purpose::STANDARD.encode from the base64 crate. -/
def base64Chars : List Nat → List Char
  | [] => []
  | [b1] => [b64Digit (b1 / 4), b64Digit (b1 % 4 * 16), '=', '=']
  | [b1, b2] =>
    [b64Digit (b1 / 4), b64Digit (b1 % 4 * 16 + b2 / 16), b64Digit (b2 % 16 * 4), '=']
  | b1 :: b2 :: b3 :: rest =>
    b64Digit (b1 / 4) :: b64Digit (b1 % 4 * 16 + b2 / 16) ::
      b64Digit (b2 % 16 * 4 + b3 / 64) :: b64Digit (b3 % 64) :: base64Chars rest

/-- String form of the standard base64 encoding. -/
def base64Encode (bytes : List Nat) : String := String.mk (base64Chars bytes)

/-- conversions.rs convert_content_parts, one part at a time: text passes
through, Url images pass through, Inline images become a data: URL with the
standard base64 encoding of the raw bytes. -/
def convertPart : ContentPart → Client.ContentPart
  | ContentPart.Text text => Client.ContentPart.TextInput text
  | ContentPart.Image (ImageReference.Url image_url) =>
    Client.ContentPart.ImageInput
      { url := image_url.url, detail := image_url.detail.map detailFromImageDetail }
  | ContentPart.Image (ImageReference.Inline image_source) =>
    Client.ContentPart.ImageInput
      { url := "data:" ++ image_source.mime_type ++ ";base64," ++
          base64Encode image_source.data
        detail := image_source.detail.map detailFromImageDetail }

/-- conversions.rs convert_content_parts: the push loop is a map. -/
def convert_content_parts (contents : List ContentPart) : Client.Content :=
  Client.Content.List (contents.map convertPart)

/-- The per-message conversion performed by the message loop of
conversions.rs create_request.  A Tool-role message gets the hard-coded
placeholder correlation id. -/
def convertMessage (message : Message) : Client.Message :=
  match message.role with
  | Role.User => Client.Message.User (convert_content_parts message.content) message.name
  | Role.Assistant =>
    Client.Message.Assistant (some (convert_content_parts message.content)) message.name none
  | Role.System => Client.Message.System (convert_content_parts message.content) message.name
  | Role.Tool =>
    Client.Message.Tool (convert_content_parts message.content) message.name "unknown"

/-- External parsing collaborators used by create_request: serde_json schema
parsing (into the abstract JSON value type V) and the numeric str::parse
calls on provider option strings. -/
structure Parsers (V : Type) where
  json : String → Except String V
  f32 : String → Option Float
  u32 : String → Option Nat
  u8 : String → Option Nat

/-- conversions.rs tool_definition_to_tool. -/
def tool_definition_to_tool {V : Type} (P : Parsers V) (tool : ToolDefinition) :
    Except Error (Client.Tool V) :=
  match P.json tool.parameters_schema with
  | Except.ok value =>
    Except.ok (Client.Tool.Function
      { name := tool.name, description := tool.description, parameters := some value })
  | Except.error error =>
    Except.error
      { code := ErrorCode.InternalError
        message := "Failed to parse tool parameters for " ++ tool.name ++ ": " ++ error
        provider_error_json := none }

/-- The tools loop of create_request: first schema parse failure aborts. -/
def convertTools {V : Type} (P : Parsers V) : List ToolDefinition →
    Except Error (List (Client.Tool V))
  | [] => Except.ok []
  | t :: rest =>
    match tool_definition_to_tool P t with
    | Except.error e => Except.error e
    | Except.ok tool =>
      match convertTools P rest with
      | Except.error e => Except.error e
      | Except.ok tools => Except.ok (tool :: tools)

/-- HashMap collect over the provider option kv list: a later binding of the
same key wins. -/
def optionsGet (kvs : List (String × String)) (k : String) : Option String :=
  match kvs with
  | [] => none
  | (k1, v) :: rest =>
    match optionsGet rest k with
    | some v1 => some v1
    | none => if k1 = k then some v else none

/-- conversions.rs create_request. -/
def create_request {V : Type} (P : Parsers V) (messages : List Message) (config : Config) :
    Except Error (Client.CompletionsRequest V) :=
  let options := config.provider_options
  let completion_messages := messages.map convertMessage
  match convertTools P config.tools with
  | Except.error e => Except.error e
  | Except.ok tools =>
    Except.ok
      { messages := completion_messages
        model := config.model
        frequency_penalty := (optionsGet options "frequency_penalty").bind P.f32
        max_completion_tokens := config.max_tokens
        n := (optionsGet options "n").bind P.u32
        presence_penalty := (optionsGet options "presence_penalty").bind P.f32
        seed := (optionsGet options "seed").bind P.u32
        stop := config.stop_sequences
        stream := some false
        stream_options := none
        temperature := config.temperature
        tool_choice := config.tool_choice
        tools := tools
        top_logprobs := (optionsGet options "top_logprobs").bind P.u8
        top_p := (optionsGet options "top_p").bind P.f32
        user := optionsGet options "user_id" }

/-- The tool-result content of conversions.rs tool_results_to_messages. -/
def toolResultContent : ToolResult → Client.ContentPart
  | ToolResult.Success success => Client.ContentPart.TextInput success.result_json
  | ToolResult.Error failure => Client.ContentPart.TextInput failure.error_message

/-- conversions.rs tool_results_to_messages: each (call, result) pair yields
an assistant message replaying the call followed by a tool message carrying
the call's real id. -/
def tool_results_to_messages : List (ToolCall × ToolResult) → List Client.Message
  | [] => []
  | (tool_call, tool_result) :: rest =>
    Client.Message.Assistant none none
        (some [Client.ToolCall.Function
          { arguments := tool_call.arguments_json, name := tool_call.name }
          tool_call.id none]) ::
      Client.Message.Tool (Client.Content.List [toolResultContent tool_result])
        none tool_call.id ::
      tool_results_to_messages rest

/-- The contents vector built by process_response from the first choice. -/
def choiceContents (choice : Client.Choice) : List ContentPart :=
  match choice.message.content with
  | some content => [ContentPart.Text content]
  | none => []

/-- The tool-call vector built by process_response from the first choice. -/
def choiceToolCalls (choice : Client.Choice) : List ToolCall :=
  (choice.message.tool_calls.getD []).map convert_tool_call

/-- The ResponseMetadata built by process_response's Message branch. -/
def responseMetadataOf (response : Client.CompletionsResponse) (choice : Client.Choice) :
    ResponseMetadata :=
  { finish_reason := choice.finish_reason.map convert_finish_reason
    usage := response.usage.map convert_usage
    provider_id := some response.id
    timestamp := some (toString response.created)
    provider_metadata_json := none }

/-- conversions.rs process_response. -/
def process_response (response : Client.CompletionsResponse) : ChatEvent :=
  match response.choices with
  | [] =>
    ChatEvent.Error
      { code := ErrorCode.InternalError
        message := "No choices in response"
        provider_error_json := none }
  | choice :: _ =>
    let contents := choiceContents choice
    let tool_calls := choiceToolCalls choice
    if contents = [] ∧ tool_calls ≠ [] then
      ChatEvent.ToolRequest tool_calls
    else
      ChatEvent.Message
        { id := response.id
          content := contents
          tool_calls := tool_calls
          metadata := responseMetadataOf response choice }

/-- lib.rs send, specialised to the body run once the api key is present
(with_config_key is an external collaborator): build the request, and only
on success hand it to the network collaborator net. -/
def sendWithKey {V : Type} (P : Parsers V)
    (net : Client.CompletionsRequest V → Except Error Client.CompletionsResponse)
    (messages : List Message) (config : Config) : ChatEvent :=
  match create_request P messages config with
  | Except.ok request =>
    match net request with
    | Except.ok response => process_response response
    | Except.error error => ChatEvent.Error error
  | Except.error err => ChatEvent.Error err

/-- lib.rs JsonFragment: per-index accumulator for a streamed tool call. -/
structure JsonFragment where
  id : String
  name : String
  json : String
deriving DecidableEq

/-- The HashMap of lib.rs OpenAIChatStream.json_fragments, modelled as an
association list keyed by the positional index. -/
abbrev Fragments := List (Nat × JsonFragment)

/-- HashMap lookup. -/
def lookupFrag : Fragments → Nat → Option JsonFragment
  | [], _ => none
  | (k, v) :: rest, idx => if k = idx then some v else lookupFrag rest idx

/-- HashMap insert-or-replace. -/
def updateFrag : Fragments → Nat → JsonFragment → Fragments
  | [], idx, f => [(idx, f)]
  | (k, v) :: rest, idx, f =>
    if k = idx then (k, f) :: rest else (k, v) :: updateFrag rest idx f

/-- The decode-relevant mutable state of lib.rs OpenAIChatStream:
finished, finish_reason and json_fragments (each a RefCell in the source). -/
structure StreamState where
  finished : Bool
  finish_reason : Option FinishReason
  json_fragments : Fragments
deriving DecidableEq

/-- The state OpenAIChatStream::new starts from. -/
def initialState : StreamState :=
  { finished := false, finish_reason := none, json_fragments := [] }

/-- The positional index a streamed tool-call fragment is merged under:
index.unwrap_or(0), lib.rs line 137. -/
def tcIndex : Client.ToolCall → Nat
  | Client.ToolCall.Function _ _ index => index.getD 0

/-- The fragments.entry(idx).or_insert_with(..) step of decode_message:
the existing accumulator, or a fresh one seeded with this fragment's id and
function name. -/
def seedFrag (fragments : Fragments) : Client.ToolCall → JsonFragment
  | Client.ToolCall.Function function id index =>
    match lookupFrag fragments (index.getD 0) with
    | some fragment => fragment
    | none => { id := id, name := function.name, json := "" }

/-- The accumulator after also applying the conditional
fragment.json.push_str(&function.arguments) of decode_message. -/
def stepFrag (fragments : Fragments) (tc : Client.ToolCall) : JsonFragment :=
  match tc with
  | Client.ToolCall.Function function _ _ =>
    let fragment := seedFrag fragments tc
    if function.arguments = "" then fragment
    else { fragment with json := fragment.json ++ function.arguments }

/-- One iteration of the tool-call loop of decode_message (lib.rs 130-159):
update the accumulator for this fragment's index, and emit a snapshot only
when the accumulator's id and name are both non-empty. -/
def processToolCall (fragments : Fragments) (tc : Client.ToolCall) :
    Fragments × Option ToolCall :=
  let fragment := stepFrag fragments tc
  (updateFrag fragments (tcIndex tc) fragment,
    if fragment.id ≠ "" ∧ fragment.name ≠ "" then
      some { id := fragment.id, name := fragment.name, arguments_json := fragment.json }
    else none)

/-- The whole tool-call loop: threads the fragment table left to right and
collects the emitted snapshots in order. -/
def processToolCalls (fragments : Fragments) : List Client.ToolCall →
    Fragments × List ToolCall
  | [] => (fragments, [])
  | tc :: rest =>
    let step := processToolCall fragments tc
    let tail := processToolCalls step.1 rest
    (tail.1,
      match step.2 with
      | some out => out :: tail.2
      | none => tail.2)

/-- The if let Some(choice) = chunk.choices.into_iter().next() block of
decode_message: record the finish reason, then return the text delta, or
the tool-call delta when the snapshot list is non-empty; a result of none
falls through to the usage check. -/
def handleFirstChoice (st : StreamState) : List Client.ChoiceChunk →
    StreamState × Option StreamEvent
  | [] => (st, none)
  | choice :: _ =>
    let st1 :=
      match choice.finish_reason with
      | some finish_reason =>
        { st with finish_reason := some (convert_finish_reason finish_reason) }
      | none => st
    match choice.delta.content with
    | some content =>
      (st1, some (StreamEvent.Delta
        { content := some [ContentPart.Text content], tool_calls := none }))
    | none =>
      match choice.delta.tool_calls with
      | some tool_calls =>
        let result := processToolCalls st1.json_fragments tool_calls
        let st2 := { st1 with json_fragments := result.1 }
        if result.2 = [] then (st2, none)
        else
          (st2, some (StreamEvent.Delta { content := none, tool_calls := some result.2 }))
      | none => (st1, none)

/-- The per-chunk part of decode_message: the choice block, then — only when
the choice produced no event — the usage trailer check that emits the
terminal Finish. -/
def decodeChunk (st : StreamState) (chunk : Client.ChatCompletionChunk) :
    StreamState × Option StreamEvent :=
  let step := handleFirstChoice st chunk.choices
  match step.2 with
  | some ev => (step.1, some ev)
  | none =>
    match chunk.usage with
    | some usage =>
      (step.1, some (StreamEvent.Finish
        { finish_reason := step.1.finish_reason
          usage := some (convert_usage usage)
          provider_id := some chunk.id
          timestamp := some (toString chunk.created)
          provider_metadata_json := none }))
    | none => (step.1, none)

/-- raw.starts_with("data: [DONE]"), lib.rs line 96. -/
def isDoneFrame (raw : List Char) : Bool := "data: [DONE]".data.isPrefixOf raw

/-- raw.starts_with("data: "), lib.rs line 101. -/
def isDataFrame (raw : List Char) : Bool := "data: ".data.isPrefixOf raw

/-- lib.rs decode_message as a pure state transition.  serde_json parsing of
the stripped payload is the external parse collaborator; its failure is the
fatal decode error of the stream (both parse stages of the source produce an
Err of the same shape, collapsed here into one). -/
def decode_message (parse : List Char → Except String Client.ChatCompletionChunk)
    (st : StreamState) (raw : List Char) :
    Except String (StreamState × Option StreamEvent) :=
  if isDoneFrame raw then
    Except.ok ({ st with finished := true }, none)
  else if isDataFrame raw then
    match parse (raw.drop 6) with
    | Except.error err =>
      Except.error ("Failed to parse stream event JSON: " ++ err)
    | Except.ok chunk => Except.ok (decodeChunk st chunk)
  else
    Except.ok (st, none)

/-- Feeding a whole frame sequence to the decoder, recording the per-frame
event slot (at most one event per frame); a decode failure aborts the run,
as it is fatal to the stream. -/
def decodeSteps (parse : List Char → Except String Client.ChatCompletionChunk)
    (st : StreamState) : List (List Char) →
    Except String (StreamState × List (Option StreamEvent))
  | [] => Except.ok (st, [])
  | raw :: rest =>
    match decode_message parse st raw with
    | Except.error e => Except.error e
    | Except.ok (st1, ev) =>
      match decodeSteps parse st1 rest with
      | Except.error e => Except.error e
      | Except.ok (st2, evs) => Except.ok (st2, ev :: evs)

/-- The tool-call loop, run from the fragment table fragments on the frame's
fragment list tcs, emits the snapshot out for positional index idx. -/
inductive EmitsFor : Fragments → List Client.ToolCall → Nat → ToolCall → Prop where
  | head (fragments : Fragments) (tc : Client.ToolCall) (rest : List Client.ToolCall)
      (out : ToolCall) (h : (processToolCall fragments tc).2 = some out) :
      EmitsFor fragments (tc :: rest) (tcIndex tc) out
  | tail (fragments : Fragments) (tc : Client.ToolCall) (rest : List Client.ToolCall)
      (idx : Nat) (out : ToolCall)
      (h : EmitsFor (processToolCall fragments tc).1 rest idx out) :
      EmitsFor fragments (tc :: rest) idx out

/-- Fragment-table evolution invariant: every accumulator survives with its
id and name unchanged and its json buffer only extended. -/
def FragExt (fragments fragments1 : Fragments) : Prop :=
  ∀ idx f, lookupFrag fragments idx = some f →
    ∃ f1, lookupFrag fragments1 idx = some f1 ∧ f1.id = f.id ∧ f1.name = f.name ∧
      f.json.data <+: f1.json.data

/-- Modelled from the spec's last-writer-wins wording: the finish reason the
first choice of a chunk records over a previously recorded one (step 3 of
the stream decoder). -/
def chunkReason (acc : Option FinishReason) : List Client.ChoiceChunk →
    Option FinishReason
  | [] => acc
  | choice :: _ =>
    match choice.finish_reason with
    | some r => some (convert_finish_reason r)
    | none => acc

/-- Modelled from the spec's last-writer-wins wording: the finish reason a
frame records (step 3 of the stream decoder), folded over frames in arrival
order. -/
def recordedReason (parse : List Char → Except String Client.ChatCompletionChunk)
    (acc : Option FinishReason) (raw : List Char) : Option FinishReason :=
  if isDoneFrame raw then acc
  else if isDataFrame raw then
    match parse (raw.drop 6) with
    | Except.error _ => acc
    | Except.ok chunk => chunkReason acc chunk.choices
  else acc

/-- Modelled from the spec's last-writer-wins wording: the most recently
recorded finish reason after a frame sequence, none if never recorded. -/
def lastFinishReason (parse : List Char → Except String Client.ChatCompletionChunk)
    (frames : List (List Char)) : Option FinishReason :=
  frames.foldl (recordedReason parse) none

/-- The fixed system instruction of lib.rs retry_prompt (the Rust literal
uses line continuations, so it is one sentence chain with single spaces). -/
def interruptedText : String :=
  "You were asked the same question previously, but the response was interrupted before completion. Please continue your response from where you left off. Do not include the part of the response that was already seen."

/-- One observed delta flattened to content parts by retry_prompt: its text
parts, then one inline tagged marker per observed tool call. -/
def deltaToContent (delta : StreamDelta) : List ContentPart :=
  (match delta.content with
   | some contents => contents
   | none => []) ++
  (match delta.tool_calls with
   | some tool_calls =>
     tool_calls.map (fun tool_call => ContentPart.Text
       ("<tool-call id=\"" ++ tool_call.id ++ "\" name=\"" ++ tool_call.name ++
        "\" arguments=\"" ++ tool_call.arguments_json ++ "\"/>"))
   | none => [])

/-- lib.rs retry_prompt: system instruction, user echo of the original
question, the original messages verbatim, then one user message holding the
flattened partial response. -/
def retry_prompt (originalMessages : List Message) (partialResult : List StreamDelta) :
    List Message :=
  { role := Role.System, name := none,
    content := [ContentPart.Text interruptedText] } ::
  { role := Role.User, name := none,
    content := [ContentPart.Text "Here is the original question:"] } ::
  (originalMessages ++
    [{ role := Role.User, name := none,
       content := ContentPart.Text
           "Here is the partial response that was successfully received:" ::
         (partialResult.map deltaToContent).flatten }])

instance {ε α : Type} [DecidableEq ε] [DecidableEq α] : DecidableEq (Except ε α) := fun a b =>
  match a, b with
  | Except.ok x, Except.ok y =>
    if h : x = y then isTrue (by rw [h]) else isFalse (by simp [h])
  | Except.error x, Except.error y =>
    if h : x = y then isTrue (by rw [h]) else isFalse (by simp [h])
  | Except.ok _, Except.error _ => isFalse (by simp)
  | Except.error _, Except.ok _ => isFalse (by simp)

theorem lookupFrag_updateFrag_self (fragments : Fragments) (idx : Nat) (f : JsonFragment) :
    lookupFrag (updateFrag fragments idx f) idx = some f := by
  induction fragments with
  | nil => simp [updateFrag, lookupFrag]
  | cons kv rest ih =>
    obtain ⟨k, v⟩ := kv
    by_cases h : k = idx
    · simp [updateFrag, h, lookupFrag]
    · simp [updateFrag, h, lookupFrag, ih]

theorem lookupFrag_updateFrag_ne (fragments : Fragments) (idx idx1 : Nat) (f : JsonFragment)
    (h : idx1 ≠ idx) :
    lookupFrag (updateFrag fragments idx f) idx1 = lookupFrag fragments idx1 := by
  induction fragments with
  | nil =>
    have hne : ¬ idx = idx1 := fun hh => h hh.symm
    simp [updateFrag, lookupFrag, hne]
  | cons kv rest ih =>
    obtain ⟨k, v⟩ := kv
    by_cases hk : k = idx
    · subst hk
      have hne : ¬ k = idx1 := fun hh => h hh.symm
      simp [updateFrag, lookupFrag, hne]
    · simp [updateFrag, hk, lookupFrag, ih]

theorem seedFrag_of_lookup (fragments : Fragments) (tc : Client.ToolCall) (f : JsonFragment)
    (h : lookupFrag fragments (tcIndex tc) = some f) : seedFrag fragments tc = f := by
  cases tc with
  | Function fn id index =>
    simp only [tcIndex, seedFrag] at h ⊢
    rw [h]

theorem stepFrag_id (fragments : Fragments) (tc : Client.ToolCall) :
    (stepFrag fragments tc).id = (seedFrag fragments tc).id := by
  cases tc with
  | Function fn id index =>
    by_cases h : fn.arguments = "" <;> simp [stepFrag, h]

theorem stepFrag_name (fragments : Fragments) (tc : Client.ToolCall) :
    (stepFrag fragments tc).name = (seedFrag fragments tc).name := by
  cases tc with
  | Function fn id index =>
    by_cases h : fn.arguments = "" <;> simp [stepFrag, h]

theorem stepFrag_json (fragments : Fragments) (tc : Client.ToolCall) :
    (seedFrag fragments tc).json.data <+: (stepFrag fragments tc).json.data := by
  cases tc with
  | Function fn id index =>
    by_cases h : fn.arguments = "" <;> simp [stepFrag, h, String.data_append]

theorem fragExt_refl (fragments : Fragments) : FragExt fragments fragments :=
  fun _ f h => ⟨f, h, rfl, rfl, List.prefix_refl _⟩

theorem fragExt_trans {a b c : Fragments} (h1 : FragExt a b) (h2 : FragExt b c) :
    FragExt a c := by
  intro idx f hf
  obtain ⟨f1, hl1, hid1, hname1, hjson1⟩ := h1 idx f hf
  obtain ⟨f2, hl2, hid2, hname2, hjson2⟩ := h2 idx f1 hl1
  exact ⟨f2, hl2, hid2.trans hid1, hname2.trans hname1, hjson1.trans hjson2⟩

theorem processToolCall_fragExt (fragments : Fragments) (tc : Client.ToolCall) :
    FragExt fragments (processToolCall fragments tc).1 := by
  intro idx f hf
  by_cases h : tcIndex tc = idx
  · subst h
    refine ⟨stepFrag fragments tc, ?_, ?_, ?_, ?_⟩
    · simp [processToolCall, lookupFrag_updateFrag_self]
    · rw [stepFrag_id, seedFrag_of_lookup _ _ _ hf]
    · rw [stepFrag_name, seedFrag_of_lookup _ _ _ hf]
    · have hj := stepFrag_json fragments tc
      rw [seedFrag_of_lookup _ _ _ hf] at hj
      exact hj
  · refine ⟨f, ?_, rfl, rfl, List.prefix_refl _⟩
    simpa [processToolCall, lookupFrag_updateFrag_ne _ _ _ _ (fun hh => h hh.symm)] using hf

theorem processToolCalls_cons (fragments : Fragments) (tc : Client.ToolCall)
    (rest : List Client.ToolCall) :
    (processToolCalls fragments (tc :: rest)).1 =
      (processToolCalls (processToolCall fragments tc).1 rest).1 := rfl

theorem processToolCalls_fragExt (fragments : Fragments) (tcs : List Client.ToolCall) :
    FragExt fragments (processToolCalls fragments tcs).1 := by
  induction tcs generalizing fragments with
  | nil => exact fragExt_refl _
  | cons tc rest ih =>
    rw [processToolCalls_cons]
    exact fragExt_trans (processToolCall_fragExt _ _) (ih _)

theorem processToolCall_emit_eq (fragments : Fragments) (tc : Client.ToolCall)
    (out : ToolCall) (h : (processToolCall fragments tc).2 = some out) :
    out = { id := (stepFrag fragments tc).id, name := (stepFrag fragments tc).name,
            arguments_json := (stepFrag fragments tc).json } ∧
      (stepFrag fragments tc).id ≠ "" ∧ (stepFrag fragments tc).name ≠ "" := by
  simp only [processToolCall] at h
  by_cases hc : (stepFrag fragments tc).id ≠ "" ∧ (stepFrag fragments tc).name ≠ ""
  · rw [if_pos hc] at h
    injection h with h
    exact ⟨h.symm, hc⟩
  · rw [if_neg hc] at h
    cases h

theorem emitsFor_sound {fragments : Fragments} {tcs : List Client.ToolCall} {idx : Nat}
    {out : ToolCall} (h : EmitsFor fragments tcs idx out) :
    out ∈ (processToolCalls fragments tcs).2 := by
  induction h with
  | head fragments tc rest out hh =>
    simp only [processToolCalls, hh]
    exact List.mem_cons_self _ _
  | tail fragments tc rest idx out hh ih =>
    simp only [processToolCalls]
    cases hs : (processToolCall fragments tc).2 with
    | none => simpa using ih
    | some o => simpa using Or.inr ih

theorem emitsFor_lower {fragments : Fragments} {tcs : List Client.ToolCall} {idx : Nat}
    {out : ToolCall} (h : EmitsFor fragments tcs idx out) :
    ∀ f, lookupFrag fragments idx = some f → f.json.data <+: out.arguments_json.data := by
  induction h with
  | head fragments tc rest out hh =>
    intro f hf
    obtain ⟨hout, _, _⟩ := processToolCall_emit_eq _ _ _ hh
    rw [hout]
    have hj := stepFrag_json fragments tc
    rw [seedFrag_of_lookup _ _ _ hf] at hj
    exact hj
  | tail fragments tc rest idx out hh ih =>
    intro f hf
    obtain ⟨f1, hl1, _, _, hjson1⟩ := processToolCall_fragExt fragments tc idx f hf
    exact hjson1.trans (ih f1 hl1)

theorem emitsFor_id_name {fragments : Fragments} {tcs : List Client.ToolCall} {idx : Nat}
    {out : ToolCall} (h : EmitsFor fragments tcs idx out) :
    ∀ f, lookupFrag fragments idx = some f → out.id = f.id ∧ out.name = f.name := by
  induction h with
  | head fragments tc rest out hh =>
    intro f hf
    obtain ⟨hout, _, _⟩ := processToolCall_emit_eq _ _ _ hh
    rw [hout]
    constructor
    · rw [stepFrag_id, seedFrag_of_lookup _ _ _ hf]
    · rw [stepFrag_name, seedFrag_of_lookup _ _ _ hf]
  | tail fragments tc rest idx out hh ih =>
    intro f hf
    obtain ⟨f1, hl1, hid1, hname1, _⟩ := processToolCall_fragExt fragments tc idx f hf
    obtain ⟨hid, hname⟩ := ih f1 hl1
    exact ⟨hid.trans hid1, hname.trans hname1⟩

theorem emitsFor_upper {fragments : Fragments} {tcs : List Client.ToolCall} {idx : Nat}
    {out : ToolCall} (h : EmitsFor fragments tcs idx out) :
    ∃ f1, lookupFrag (processToolCalls fragments tcs).1 idx = some f1 ∧
      f1.id = out.id ∧ f1.name = out.name ∧ out.arguments_json.data <+: f1.json.data := by
  induction h with
  | head fragments tc rest out hh =>
    obtain ⟨hout, _, _⟩ := processToolCall_emit_eq _ _ _ hh
    have hl : lookupFrag (processToolCall fragments tc).1 (tcIndex tc) =
        some (stepFrag fragments tc) := by
      simp [processToolCall, lookupFrag_updateFrag_self]
    obtain ⟨f1, hl1, hid, hname, hjson⟩ :=
      processToolCalls_fragExt (processToolCall fragments tc).1 rest (tcIndex tc) _ hl
    refine ⟨f1, ?_, ?_, ?_, ?_⟩
    · rw [processToolCalls_cons]
      exact hl1
    · rw [hid, hout]
    · rw [hname, hout]
    · rw [hout]
      exact hjson
  | tail fragments tc rest idx out hh ih =>
    obtain ⟨f1, hl1, hid, hname, hjson⟩ := ih
    refine ⟨f1, ?_, hid, hname, hjson⟩
    rw [processToolCalls_cons]
    exact hl1

theorem emitsFor_nonempty {fragments : Fragments} {tcs : List Client.ToolCall} {idx : Nat}
    {out : ToolCall} (h : EmitsFor fragments tcs idx out) :
    ∀ f, lookupFrag fragments idx = some f → f.id ≠ "" ∧ f.name ≠ "" := by
  induction h with
  | head fragments tc rest out hh =>
    intro f hf
    obtain ⟨_, hid, hname⟩ := processToolCall_emit_eq _ _ _ hh
    rw [stepFrag_id, seedFrag_of_lookup _ _ _ hf] at hid
    rw [stepFrag_name, seedFrag_of_lookup _ _ _ hf] at hname
    exact ⟨hid, hname⟩
  | tail fragments tc rest idx out hh ih =>
    intro f hf
    obtain ⟨f1, hl1, hid1, hname1, _⟩ := processToolCall_fragExt fragments tc idx f hf
    obtain ⟨hid, hname⟩ := ih f1 hl1
    rw [hid1] at hid
    rw [hname1] at hname
    exact ⟨hid, hname⟩

theorem handleFirstChoice_finished (st : StreamState) (choices : List Client.ChoiceChunk) :
    (handleFirstChoice st choices).1.finished = st.finished := by
  cases choices with
  | nil => rfl
  | cons choice rest =>
    simp only [handleFirstChoice]
    cases choice.finish_reason <;> cases choice.delta.content <;>
      cases choice.delta.tool_calls <;> simp <;> split <;> rfl

theorem handleFirstChoice_fragExt (st : StreamState) (choices : List Client.ChoiceChunk) :
    FragExt st.json_fragments (handleFirstChoice st choices).1.json_fragments := by
  cases choices with
  | nil => exact fragExt_refl _
  | cons choice rest =>
    simp only [handleFirstChoice]
    cases choice.finish_reason <;> cases choice.delta.content <;>
      cases choice.delta.tool_calls <;> simp <;> first
        | exact fragExt_refl _
        | (split <;> exact processToolCalls_fragExt _ _)

theorem handleFirstChoice_reason (st : StreamState) (choices : List Client.ChoiceChunk) :
    (handleFirstChoice st choices).1.finish_reason = chunkReason st.finish_reason choices := by
  cases choices with
  | nil => rfl
  | cons choice rest =>
    simp only [handleFirstChoice, chunkReason]
    cases choice.finish_reason <;> cases choice.delta.content <;>
      cases choice.delta.tool_calls <;> simp <;> split <;> rfl

theorem handleFirstChoice_delta (st : StreamState) (choices : List Client.ChoiceChunk)
    (ev : StreamEvent) (h : (handleFirstChoice st choices).2 = some ev) :
    ∃ d, ev = StreamEvent.Delta d := by
  cases choices with
  | nil => cases h
  | cons choice rest =>
    simp only [handleFirstChoice] at h
    cases hc : choice.delta.content with
    | some text =>
      simp only [hc] at h
      injection h with h
      exact ⟨_, h.symm⟩
    | none =>
      simp only [hc] at h
      cases htc : choice.delta.tool_calls with
      | none =>
        simp only [htc] at h
        cases h
      | some tcs =>
        simp only [htc] at h
        split at h
        · cases h
        · injection h with h
          exact ⟨_, h.symm⟩

theorem handleFirstChoice_text (st : StreamState) (choice : Client.ChoiceChunk)
    (rest : List Client.ChoiceChunk) (text : String)
    (hc : choice.delta.content = some text) :
    (handleFirstChoice st (choice :: rest)).2 =
      some (StreamEvent.Delta
        { content := some [ContentPart.Text text], tool_calls := none }) ∧
    (handleFirstChoice st (choice :: rest)).1.json_fragments = st.json_fragments := by
  simp only [handleFirstChoice, hc]
  cases choice.finish_reason <;> simp

theorem decodeChunk_state (st : StreamState) (chunk : Client.ChatCompletionChunk) :
    (decodeChunk st chunk).1 = (handleFirstChoice st chunk.choices).1 := by
  simp only [decodeChunk]
  cases h : (handleFirstChoice st chunk.choices).2 <;> cases chunk.usage <;> simp [h]

theorem decode_message_cases (parse : List Char → Except String Client.ChatCompletionChunk)
    (st : StreamState) (raw : List Char) (st1 : StreamState) (ev : Option StreamEvent)
    (h : decode_message parse st raw = Except.ok (st1, ev)) :
    (isDoneFrame raw = true ∧ st1 = { st with finished := true } ∧ ev = none) ∨
    (isDoneFrame raw = false ∧ isDataFrame raw = true ∧
      ∃ chunk, parse (raw.drop 6) = Except.ok chunk ∧ decodeChunk st chunk = (st1, ev)) ∨
    (isDoneFrame raw = false ∧ isDataFrame raw = false ∧ st1 = st ∧ ev = none) := by
  unfold decode_message at h
  split at h
  · rename_i hdone
    injection h with h
    obtain ⟨h1, h2⟩ := (Prod.mk.injEq _ _ _ _).mp h
    exact Or.inl ⟨hdone, h1.symm, h2.symm⟩
  · rename_i hdone
    simp only [Bool.not_eq_true] at hdone
    split at h
    · rename_i hdata
      cases hp : parse (raw.drop 6) with
      | error e =>
        rw [hp] at h
        cases h
      | ok chunk =>
        rw [hp] at h
        injection h with h
        exact Or.inr (Or.inl ⟨hdone, hdata, chunk, rfl, h⟩)
    · rename_i hdata
      simp only [Bool.not_eq_true] at hdata
      injection h with h
      obtain ⟨h1, h2⟩ := (Prod.mk.injEq _ _ _ _).mp h
      exact Or.inr (Or.inr ⟨hdone, hdata, h1.symm, h2.symm⟩)

theorem decode_message_finished (parse : List Char → Except String Client.ChatCompletionChunk)
    (st : StreamState) (raw : List Char) (st1 : StreamState) (ev : Option StreamEvent)
    (h : decode_message parse st raw = Except.ok (st1, ev)) :
    st1.finished = (st.finished || isDoneFrame raw) := by
  rcases decode_message_cases _ _ _ _ _ h with ⟨hd, rfl, _⟩ |
      ⟨hd, hdata, chunk, hp, hdc⟩ | ⟨hd, hdata, rfl, _⟩
  · simp [hd]
  · have h1 : st1 = (decodeChunk st chunk).1 := by rw [hdc]
    rw [h1, decodeChunk_state, handleFirstChoice_finished, hd]
    simp
  · simp [hd]

theorem decode_message_fragExt (parse : List Char → Except String Client.ChatCompletionChunk)
    (st : StreamState) (raw : List Char) (st1 : StreamState) (ev : Option StreamEvent)
    (h : decode_message parse st raw = Except.ok (st1, ev)) :
    FragExt st.json_fragments st1.json_fragments := by
  rcases decode_message_cases _ _ _ _ _ h with ⟨hd, rfl, _⟩ |
      ⟨hd, hdata, chunk, hp, hdc⟩ | ⟨hd, hdata, rfl, _⟩
  · exact fragExt_refl _
  · have h1 : st1 = (decodeChunk st chunk).1 := by rw [hdc]
    rw [h1, decodeChunk_state]
    exact handleFirstChoice_fragExt _ _
  · exact fragExt_refl _

theorem decode_message_reason (parse : List Char → Except String Client.ChatCompletionChunk)
    (st : StreamState) (raw : List Char) (st1 : StreamState) (ev : Option StreamEvent)
    (h : decode_message parse st raw = Except.ok (st1, ev)) :
    st1.finish_reason = recordedReason parse st.finish_reason raw := by
  rcases decode_message_cases _ _ _ _ _ h with ⟨hd, rfl, _⟩ |
      ⟨hd, hdata, chunk, hp, hdc⟩ | ⟨hd, hdata, rfl, _⟩
  · simp [recordedReason, hd]
  · have h1 : st1 = (decodeChunk st chunk).1 := by rw [hdc]
    rw [h1, decodeChunk_state, handleFirstChoice_reason]
    simp [recordedReason, hd, hdata, hp]
  · simp [recordedReason, hd, hdata]

theorem decode_message_event_data (parse : List Char → Except String Client.ChatCompletionChunk)
    (st : StreamState) (raw : List Char) (st1 : StreamState) (ev : StreamEvent)
    (h : decode_message parse st raw = Except.ok (st1, some ev)) :
    isDataFrame raw = true ∧ isDoneFrame raw = false := by
  rcases decode_message_cases _ _ _ _ _ h with ⟨hd, _, hev⟩ |
      ⟨hd, hdata, chunk, hp, hdc⟩ | ⟨hd, hdata, _, hev⟩
  · cases hev
  · exact ⟨hdata, hd⟩
  · cases hev

theorem decodeSteps_nil_inv (parse : List Char → Except String Client.ChatCompletionChunk)
    (st st1 : StreamState) (evs : List (Option StreamEvent))
    (h : decodeSteps parse st [] = Except.ok (st1, evs)) : st1 = st ∧ evs = [] := by
  simp only [decodeSteps] at h
  injection h with h
  obtain ⟨h1, h2⟩ := (Prod.mk.injEq _ _ _ _).mp h
  exact ⟨h1.symm, h2.symm⟩

theorem decodeSteps_cons_inv (parse : List Char → Except String Client.ChatCompletionChunk)
    (st st1 : StreamState) (raw : List Char) (rest : List (List Char))
    (evs : List (Option StreamEvent))
    (h : decodeSteps parse st (raw :: rest) = Except.ok (st1, evs)) :
    ∃ stm ev evs2, decode_message parse st raw = Except.ok (stm, ev) ∧
      decodeSteps parse stm rest = Except.ok (st1, evs2) ∧ evs = ev :: evs2 := by
  simp only [decodeSteps] at h
  cases hd : decode_message parse st raw with
  | error e =>
    simp only [hd] at h
    cases h
  | ok p =>
    obtain ⟨stm, ev⟩ := p
    simp only [hd] at h
    cases hs : decodeSteps parse stm rest with
    | error e =>
      simp only [hs] at h
      cases h
    | ok q =>
      obtain ⟨st2, evs2⟩ := q
      simp only [hs] at h
      injection h with h
      obtain ⟨h1, h2⟩ := (Prod.mk.injEq _ _ _ _).mp h
      subst h1
      exact ⟨stm, ev, evs2, rfl, hs, h2.symm⟩

theorem decodeSteps_finished (parse : List Char → Except String Client.ChatCompletionChunk)
    (st : StreamState) (frames : List (List Char)) (st1 : StreamState)
    (evs : List (Option StreamEvent))
    (h : decodeSteps parse st frames = Except.ok (st1, evs)) :
    st1.finished = (st.finished || frames.any isDoneFrame) := by
  induction frames generalizing st evs with
  | nil =>
    obtain ⟨rfl, _⟩ := decodeSteps_nil_inv _ _ _ _ h
    simp
  | cons raw rest ih =>
    obtain ⟨stm, ev, evs2, hd, hs, _⟩ := decodeSteps_cons_inv _ _ _ _ _ _ h
    rw [ih _ _ hs, decode_message_finished _ _ _ _ _ hd, List.any_cons, Bool.or_assoc]

theorem decodeSteps_fragExt (parse : List Char → Except String Client.ChatCompletionChunk)
    (st : StreamState) (frames : List (List Char)) (st1 : StreamState)
    (evs : List (Option StreamEvent))
    (h : decodeSteps parse st frames = Except.ok (st1, evs)) :
    FragExt st.json_fragments st1.json_fragments := by
  induction frames generalizing st evs with
  | nil =>
    obtain ⟨rfl, _⟩ := decodeSteps_nil_inv _ _ _ _ h
    exact fragExt_refl _
  | cons raw rest ih =>
    obtain ⟨stm, ev, evs2, hd, hs, _⟩ := decodeSteps_cons_inv _ _ _ _ _ _ h
    exact fragExt_trans (decode_message_fragExt _ _ _ _ _ hd) (ih _ _ hs)

theorem decodeSteps_reason (parse : List Char → Except String Client.ChatCompletionChunk)
    (st : StreamState) (frames : List (List Char)) (st1 : StreamState)
    (evs : List (Option StreamEvent))
    (h : decodeSteps parse st frames = Except.ok (st1, evs)) :
    st1.finish_reason = frames.foldl (recordedReason parse) st.finish_reason := by
  induction frames generalizing st evs with
  | nil =>
    obtain ⟨rfl, _⟩ := decodeSteps_nil_inv _ _ _ _ h
    rfl
  | cons raw rest ih =>
    obtain ⟨stm, ev, evs2, hd, hs, _⟩ := decodeSteps_cons_inv _ _ _ _ _ _ h
    rw [List.foldl_cons, ← decode_message_reason _ _ _ _ _ hd, ih _ _ hs]

theorem decodeSteps_length (parse : List Char → Except String Client.ChatCompletionChunk)
    (st : StreamState) (frames : List (List Char)) (st1 : StreamState)
    (evs : List (Option StreamEvent))
    (h : decodeSteps parse st frames = Except.ok (st1, evs)) :
    evs.length = frames.length := by
  induction frames generalizing st evs with
  | nil =>
    obtain ⟨_, rfl⟩ := decodeSteps_nil_inv _ _ _ _ h
    rfl
  | cons raw rest ih =>
    obtain ⟨stm, ev, evs2, hd, hs, rfl⟩ := decodeSteps_cons_inv _ _ _ _ _ _ h
    simp [ih _ _ hs]

theorem decodeSteps_count (parse : List Char → Except String Client.ChatCompletionChunk)
    (st : StreamState) (frames : List (List Char)) (st1 : StreamState)
    (evs : List (Option StreamEvent))
    (h : decodeSteps parse st frames = Except.ok (st1, evs)) :
    (evs.filterMap id).length ≤ (frames.filter (fun raw => isDataFrame raw)).length := by
  induction frames generalizing st evs with
  | nil =>
    obtain ⟨_, rfl⟩ := decodeSteps_nil_inv _ _ _ _ h
    simp
  | cons raw rest ih =>
    obtain ⟨stm, ev, evs2, hd, hs, rfl⟩ := decodeSteps_cons_inv _ _ _ _ _ _ h
    have hrest := ih _ _ hs
    cases ev with
    | none =>
      simp only [List.filterMap_cons, id, List.filter_cons]
      cases hdata : isDataFrame raw <;> simp <;> omega
    | some ev1 =>
      have hdata := (decode_message_event_data _ _ _ _ _ hd).1
      simp only [List.filterMap_cons, id, List.filter_cons, hdata]
      simp
      omega

theorem decodeChunk_finish_inv (st : StreamState) (chunk : Client.ChatCompletionChunk)
    (st1 : StreamState) (meta : ResponseMetadata)
    (h : decodeChunk st chunk = (st1, some (StreamEvent.Finish meta))) :
    ∃ usage, chunk.usage = some usage ∧
      meta = { finish_reason := st1.finish_reason, usage := some (convert_usage usage),
               provider_id := some chunk.id, timestamp := some (toString chunk.created),
               provider_metadata_json := none } := by
  unfold decodeChunk at h
  cases hstep : (handleFirstChoice st chunk.choices).2 with
  | some ev2 =>
    simp only [hstep] at h
    obtain ⟨d, hd2⟩ := handleFirstChoice_delta st chunk.choices ev2 hstep
    obtain ⟨h1, h2⟩ := (Prod.mk.injEq _ _ _ _).mp h
    rw [hd2] at h2
    injection h2 with h2
    cases h2
  | none =>
    simp only [hstep] at h
    cases hu : chunk.usage with
    | none =>
      simp only [hu] at h
      obtain ⟨h1, h2⟩ := (Prod.mk.injEq _ _ _ _).mp h
      cases h2
    | some usage =>
      simp only [hu] at h
      obtain ⟨h1, h2⟩ := (Prod.mk.injEq _ _ _ _).mp h
      injection h2 with h2
      injection h2 with h2
      subst h1
      exact ⟨usage, rfl, h2.symm⟩

theorem decode_message_finish_inv
    (parse : List Char → Except String Client.ChatCompletionChunk)
    (st : StreamState) (raw : List Char) (st1 : StreamState) (meta : ResponseMetadata)
    (h : decode_message parse st raw = Except.ok (st1, some (StreamEvent.Finish meta))) :
    isDataFrame raw = true ∧ isDoneFrame raw = false ∧
    ∃ chunk usage, parse (raw.drop 6) = Except.ok chunk ∧ chunk.usage = some usage ∧
      meta = { finish_reason := st1.finish_reason, usage := some (convert_usage usage),
               provider_id := some chunk.id, timestamp := some (toString chunk.created),
               provider_metadata_json := none } := by
  rcases decode_message_cases _ _ _ _ _ h with ⟨_, _, hev⟩ |
      ⟨hd, hdata, chunk, hp, hdc⟩ | ⟨_, _, _, hev⟩
  · cases hev
  · obtain ⟨usage, hu, hmeta⟩ := decodeChunk_finish_inv _ _ _ _ hdc
    exact ⟨hdata, hd, chunk, usage, hp, hu, hmeta⟩
  · cases hev

theorem decode_message_usage (parse : List Char → Except String Client.ChatCompletionChunk)
    (st : StreamState) (raw : List Char) (chunk : Client.ChatCompletionChunk)
    (usage : Client.Usage) (st1 : StreamState)
    (hdata : isDataFrame raw = true) (hdone : isDoneFrame raw = false)
    (hp : parse (raw.drop 6) = Except.ok chunk)
    (hstep : handleFirstChoice st chunk.choices = (st1, none))
    (hu : chunk.usage = some usage) :
    decode_message parse st raw = Except.ok (st1, some (StreamEvent.Finish
      { finish_reason := st1.finish_reason, usage := some (convert_usage usage),
        provider_id := some chunk.id, timestamp := some (toString chunk.created),
        provider_metadata_json := none })) := by
  have hs1 : (handleFirstChoice st chunk.choices).1 = st1 := by rw [hstep]
  have hs2 : (handleFirstChoice st chunk.choices).2 = none := by rw [hstep]
  simp [decode_message, decodeChunk, hdone, hdata, hp, hs1, hs2, hu]

theorem decodeChunk_of_event (st : StreamState) (chunk : Client.ChatCompletionChunk)
    (ev : StreamEvent) (h : (handleFirstChoice st chunk.choices).2 = some ev) :
    decodeChunk st chunk = ((handleFirstChoice st chunk.choices).1, some ev) := by
  simp [decodeChunk, h]

/-- Claim C1: over any frame sequence the session's finished flag ends true
exactly when an end-of-stream sentinel frame was delivered (the successful
run already encodes that no data frame was malformed); a sentinel frame
itself only sets finished and yields no event; and a decode step never
resets finished, so Open to Finished is irreversible. -/
theorem c1_finished_iff_sentinel
    (parse : List Char → Except String Client.ChatCompletionChunk)
    (frames : List (List Char)) (st1 : StreamState) (evs : List (Option StreamEvent))
    (hrun : decodeSteps parse initialState frames = Except.ok (st1, evs)) :
    st1.finished = frames.any isDoneFrame ∧
    (∀ st0 raw, isDoneFrame raw = true →
      decode_message parse st0 raw = Except.ok ({ st0 with finished := true }, none)) ∧
    (∀ st0 raw st2 ev, decode_message parse st0 raw = Except.ok (st2, ev) →
      st0.finished = true → st2.finished = true) := by
  refine ⟨?_, ?_, ?_⟩
  · have h := decodeSteps_finished _ _ _ _ _ hrun
    simpa [initialState] using h
  · intro st0 raw hdone
    simp [decode_message, hdone]
  · intro st0 raw st2 ev h hfin
    rw [decode_message_finished _ _ _ _ _ h, hfin]
    simp

def probeParse : List Char → Except String Client.ChatCompletionChunk :=
  fun _ => Except.error "no data frame expected"

theorem c1_witness :
    ({ finished := true, finish_reason := none, json_fragments := [] } : StreamState).finished =
      List.any ["data: [DONE]".data] isDoneFrame :=
  (c1_finished_iff_sentinel probeParse ["data: [DONE]".data]
    { finished := true, finish_reason := none, json_fragments := [] } [none] (by decide)).1

/-- Claim C4: each decode call yields at most one event (one optional slot
per frame), so over any malformed-free sequence the number of emitted
events is bounded by the number of data frames; and a frame whose first
choice's delta carries both text content and tool-call fragments emits only
the text Delta, leaving the fragment table untouched. -/
theorem c4_one_event_text_priority
    (parse : List Char → Except String Client.ChatCompletionChunk)
    (frames : List (List Char)) (st1 : StreamState) (evs : List (Option StreamEvent))
    (hrun : decodeSteps parse initialState frames = Except.ok (st1, evs)) :
    evs.length = frames.length ∧
    (evs.filterMap id).length ≤ (frames.filter (fun raw => isDataFrame raw)).length ∧
    (∀ st0 raw st2 ev chunk choice rest text tcs,
      isDoneFrame raw = false → isDataFrame raw = true →
      parse (raw.drop 6) = Except.ok chunk →
      chunk.choices = choice :: rest →
      choice.delta.content = some text →
      choice.delta.tool_calls = some tcs →
      decode_message parse st0 raw = Except.ok (st2, ev) →
      ev = some (StreamEvent.Delta
        { content := some [ContentPart.Text text], tool_calls := none }) ∧
      st2.json_fragments = st0.json_fragments) := by
  refine ⟨decodeSteps_length _ _ _ _ _ hrun, decodeSteps_count _ _ _ _ _ hrun, ?_⟩
  intro st0 raw st2 ev chunk choice rest text tcs hdone hdata hp hch hc htc h
  rcases decode_message_cases _ _ _ _ _ h with ⟨hd, _, _⟩ |
      ⟨hd, _, chunk2, hp2, hdc⟩ | ⟨_, hdata2, _, _⟩
  · rw [hd] at hdone
    cases hdone
  · rw [hp] at hp2
    injection hp2 with hp2
    subst hp2
    obtain ⟨hev, hfrag⟩ := handleFirstChoice_text st0 choice rest text hc
    have hev2 : (handleFirstChoice st0 chunk.choices).2 = some (StreamEvent.Delta
        { content := some [ContentPart.Text text], tool_calls := none }) := by
      rw [hch]
      exact hev
    have hfrag2 : (handleFirstChoice st0 chunk.choices).1.json_fragments =
        st0.json_fragments := by
      rw [hch]
      exact hfrag
    rw [decodeChunk_of_event st0 chunk _ hev2] at hdc
    obtain ⟨h1, h2⟩ := (Prod.mk.injEq _ _ _ _).mp hdc
    constructor
    · exact h2.symm
    · rw [← h1]
      exact hfrag2
  · rw [hdata2] at hdata
    cases hdata

def c4Chunk : Client.ChatCompletionChunk :=
  { id := "a", created := 1, model := "m",
    choices := [{ index := 0,
                  delta := { content := some "hi",
                             tool_calls := some [Client.ToolCall.Function
                               { arguments := "x", name := "f" } "c1" (some 0)],
                             role := none },
                  finish_reason := none }],
    usage := none, system_fingerprint := none }

def c4Parse : List Char → Except String Client.ChatCompletionChunk := fun s =>
  if s = "t".data then Except.ok c4Chunk else Except.error "bad"

theorem c4_witness :
    ([some (StreamEvent.Delta
        { content := some [ContentPart.Text "hi"], tool_calls := none })] :
      List (Option StreamEvent)).length = [("data: t".data)].length ∧
    (([some (StreamEvent.Delta
        { content := some [ContentPart.Text "hi"], tool_calls := none })] :
      List (Option StreamEvent)).filterMap id).length ≤
      (([("data: t".data)]).filter (fun raw => isDataFrame raw)).length := by
  have h := c4_one_event_text_priority c4Parse [("data: t".data)]
    { finished := false, finish_reason := none, json_fragments := [] }
    [some (StreamEvent.Delta { content := some [ContentPart.Text "hi"], tool_calls := none })]
    (by decide)
  exact ⟨h.1, h.2.1⟩

/-- Claim C5: a Finish event emitted after some run of frames carries the
most recently recorded finish reason, last-writer-wins in frame-arrival
order over the whole history including the emitting frame's own step-3
recording (none if no frame carried one), together with the converted usage
figures and the emitting chunk's id and created timestamp; and conversely a
data frame whose first choice contributed no event but whose chunk carries
usage statistics emits exactly that Finish event. -/
theorem c5_finish_last_writer_wins
    (parse : List Char → Except String Client.ChatCompletionChunk)
    (frames : List (List Char)) (stN : StreamState) (evs : List (Option StreamEvent))
    (raw : List Char) (st1 : StreamState) (meta : ResponseMetadata)
    (hrun : decodeSteps parse initialState frames = Except.ok (stN, evs))
    (hstep : decode_message parse stN raw = Except.ok (st1, some (StreamEvent.Finish meta))) :
    meta.finish_reason = lastFinishReason parse (frames ++ [raw]) ∧
    (∃ chunk usage, isDataFrame raw = true ∧ isDoneFrame raw = false ∧
      parse (raw.drop 6) = Except.ok chunk ∧ chunk.usage = some usage ∧
      meta.usage = some (convert_usage usage) ∧ meta.provider_id = some chunk.id ∧
      meta.timestamp = some (toString chunk.created)) ∧
    (∀ st0 raw0 chunk usage st2,
      isDataFrame raw0 = true → isDoneFrame raw0 = false →
      parse (raw0.drop 6) = Except.ok chunk →
      handleFirstChoice st0 chunk.choices = (st2, none) →
      chunk.usage = some usage →
      decode_message parse st0 raw0 = Except.ok (st2, some (StreamEvent.Finish
        { finish_reason := st2.finish_reason, usage := some (convert_usage usage),
          provider_id := some chunk.id, timestamp := some (toString chunk.created),
          provider_metadata_json := none }))) := by
  obtain ⟨hdata, hdone, chunk, usage, hp, hu, hmeta⟩ :=
    decode_message_finish_inv _ _ _ _ _ hstep
  refine ⟨?_, ⟨chunk, usage, hdata, hdone, hp, hu, ?_, ?_, ?_⟩, ?_⟩
  · rw [hmeta]
    show st1.finish_reason = lastFinishReason parse (frames ++ [raw])
    rw [decode_message_reason _ _ _ _ _ hstep, lastFinishReason, List.foldl_append]
    have hN := decodeSteps_reason _ _ _ _ _ hrun
    rw [initialState] at hN
    rw [← hN]
    rfl
  · rw [hmeta]
  · rw [hmeta]
  · rw [hmeta]
  · intro st0 raw0 chunk0 usage0 st2 hdata0 hdone0 hp0 hstep0 hu0
    exact decode_message_usage _ _ _ _ _ _ hdata0 hdone0 hp0 hstep0 hu0

def c5Chunk : Client.ChatCompletionChunk :=
  { id := "chunk-1", created := 7, model := "m", choices := [],
    usage := some { completion_tokens := 2, prompt_tokens := 1, total_tokens := 3 },
    system_fingerprint := none }

def c5Parse : List Char → Except String Client.ChatCompletionChunk := fun s =>
  if s = "u".data then Except.ok c5Chunk else Except.error "bad"

theorem c5_witness :
    ({ finish_reason := none,
       usage := some { input_tokens := some 1, output_tokens := some 2, total_tokens := some 3 },
       provider_id := some "chunk-1", timestamp := some "7",
       provider_metadata_json := none } : ResponseMetadata).finish_reason =
      lastFinishReason c5Parse ([] ++ [("data: u".data)]) :=
  (c5_finish_last_writer_wins c5Parse [] initialState [] ("data: u".data) initialState
    { finish_reason := none,
      usage := some { input_tokens := some 1, output_tokens := some 2, total_tokens := some 3 },
      provider_id := some "chunk-1", timestamp := some "7",
      provider_metadata_json := none }
    (by decide) (by decide)).1

/-- Claim C2: an accumulator's id and name are fixed once created and its
json buffer only grows, so a tool-call snapshot emitted for an index at one
frame has its arguments string as a prefix of the snapshot emitted for the
same index at any later frame, with identical id and name; both snapshots
really appear in their frame's emitted tool-call list. -/
theorem c2_fragment_growth_monotonic
    (parse : List Char → Except String Client.ChatCompletionChunk)
    (st stMid stLater : StreamState) (tcs tcs2 : List Client.ToolCall)
    (idx : Nat) (out out2 : ToolCall) (frames : List (List Char))
    (evs : List (Option StreamEvent))
    (h1 : EmitsFor st.json_fragments tcs idx out)
    (hmid : stMid.json_fragments = (processToolCalls st.json_fragments tcs).1)
    (hrun : decodeSteps parse stMid frames = Except.ok (stLater, evs))
    (h2 : EmitsFor stLater.json_fragments tcs2 idx out2) :
    out.arguments_json.data <+: out2.arguments_json.data ∧
    out.id = out2.id ∧ out.name = out2.name ∧
    out ∈ (processToolCalls st.json_fragments tcs).2 ∧
    out2 ∈ (processToolCalls stLater.json_fragments tcs2).2 := by
  obtain ⟨f1, hf1, hid1, hname1, hjson1⟩ := emitsFor_upper h1
  have hext := decodeSteps_fragExt _ _ _ _ _ hrun
  have hf1m : lookupFrag stMid.json_fragments idx = some f1 := by
    rw [hmid]
    exact hf1
  obtain ⟨f2, hf2, hid2, hname2, hjson2⟩ := hext idx f1 hf1m
  have hlow := emitsFor_lower h2 f2 hf2
  have hidn := emitsFor_id_name h2 f2 hf2
  refine ⟨?_, ?_, ?_, emitsFor_sound h1, emitsFor_sound h2⟩
  · exact hjson1.trans (hjson2.trans hlow)
  · exact (hidn.1.trans (hid2.trans hid1)).symm
  · exact (hidn.2.trans (hname2.trans hname1)).symm

def c2TcA : Client.ToolCall :=
  Client.ToolCall.Function { arguments := "ab", name := "f" } "c1" (some 0)

def c2TcB : Client.ToolCall :=
  Client.ToolCall.Function { arguments := "cd", name := "" } "" (some 0)

def c2OutA : ToolCall := { id := "c1", name := "f", arguments_json := "ab" }

def c2OutB : ToolCall := { id := "c1", name := "f", arguments_json := "abcd" }

def c2StMid : StreamState :=
  { finished := false, finish_reason := none,
    json_fragments := [(0, { id := "c1", name := "f", json := "ab" })] }

theorem c2_witness :
    c2OutA.arguments_json.data <+: c2OutB.arguments_json.data ∧
    c2OutA.id = c2OutB.id ∧ c2OutA.name = c2OutB.name ∧
    c2OutA ∈ (processToolCalls initialState.json_fragments [c2TcA]).2 ∧
    c2OutB ∈ (processToolCalls c2StMid.json_fragments [c2TcB]).2 :=
  c2_fragment_growth_monotonic probeParse initialState c2StMid c2StMid
    [c2TcA] [c2TcB] 0 c2OutA c2OutB [] []
    (EmitsFor.head _ _ _ _ (by decide)) (by decide) rfl
    (EmitsFor.head _ _ _ _ (by decide))

def c3Tc1 : Client.ToolCall :=
  Client.ToolCall.Function { arguments := "a", name := "" } "" (some 0)

def c3Tc2 : Client.ToolCall :=
  Client.ToolCall.Function { arguments := "b", name := "f" } "c1" (some 0)

def c3Chunk1 : Client.ChatCompletionChunk :=
  { id := "a", created := 1, model := "m",
    choices := [{ index := 0,
                  delta := { content := none, tool_calls := some [c3Tc1], role := none },
                  finish_reason := none }],
    usage := none, system_fingerprint := none }

def c3Chunk2 : Client.ChatCompletionChunk :=
  { id := "b", created := 2, model := "m",
    choices := [{ index := 0,
                  delta := { content := none, tool_calls := some [c3Tc2], role := none },
                  finish_reason := none }],
    usage := none, system_fingerprint := none }

def c3Parse : List Char → Except String Client.ChatCompletionChunk := fun s =>
  if s = "1".data then Except.ok c3Chunk1
  else if s = "2".data then Except.ok c3Chunk2
  else Except.error "bad"

/-- Claim C3 is false on the code: index 0's accumulator is created from a
frame with empty id and name; the next frame supplies id c1 and name f for
the same index, yet the decoder emits no event at all for that frame (both
event slots are none) and the accumulator keeps its empty id and name while
still absorbing the argument text, because entry(..).or_insert_with never
overwrites an existing accumulator. -/
theorem c3_counterexample :
    decodeSteps c3Parse initialState [("data: 1".data), ("data: 2".data)] =
      Except.ok ({ finished := false, finish_reason := none,
                   json_fragments := [(0, { id := "", name := "", json := "ab" })] },
                 [none, none]) := by
  decide

/-- Claim C3 (amended): once an accumulator is created lacking an id or a
name, later frames never update them — the id and name stay exactly as
first seeded across any further decoding — and consequently no snapshot is
ever emitted for that index, neither now nor after any number of further
frames. -/
theorem c3_amended_never_identified
    (st : StreamState) (idx : Nat) (f : JsonFragment)
    (hlook : lookupFrag st.json_fragments idx = some f)
    (hempty : f.id = "" ∨ f.name = "") :
    (∀ tcs out, ¬ EmitsFor st.json_fragments tcs idx out) ∧
    (∀ parse frames st1 evs, decodeSteps parse st frames = Except.ok (st1, evs) →
      ∃ f1, lookupFrag st1.json_fragments idx = some f1 ∧ f1.id = f.id ∧
        f1.name = f.name ∧ ∀ tcs out, ¬ EmitsFor st1.json_fragments tcs idx out) := by
  constructor
  · intro tcs out hem
    obtain ⟨hid, hname⟩ := emitsFor_nonempty hem f hlook
    cases hempty with
    | inl h => exact hid h
    | inr h => exact hname h
  · intro parse frames st1 evs hrun
    obtain ⟨f1, hl1, hid1, hname1, _⟩ := decodeSteps_fragExt _ _ _ _ _ hrun idx f hlook
    refine ⟨f1, hl1, hid1, hname1, ?_⟩
    intro tcs out hem
    obtain ⟨hid, hname⟩ := emitsFor_nonempty hem f1 hl1
    cases hempty with
    | inl h => exact hid (hid1.trans h)
    | inr h => exact hname (hname1.trans h)

theorem c3_witness :
    ¬ EmitsFor [(0, { id := "", name := "", json := "a" })] [c3Tc2] 0
      { id := "c1", name := "f", arguments_json := "ab" } :=
  (c3_amended_never_identified
    { finished := false, finish_reason := none,
      json_fragments := [(0, { id := "", name := "", json := "a" })] } 0
    { id := "", name := "", json := "a" } (by decide) (Or.inl rfl)).1
    [c3Tc2] { id := "c1", name := "f", arguments_json := "ab" }

/-- Claim C6: process_response inspects only the first choice: zero choices
give an internal-error ChatEvent.Error with no provider payload; a first
choice with tool calls and no text gives ChatEvent.ToolRequest with exactly
those tool calls; otherwise ChatEvent.Message carries whatever text and
tool calls are present plus finish/usage metadata; choices beyond the first
never influence the result. -/
theorem c6_process_response (r : Client.CompletionsResponse) :
    (r.choices = [] → process_response r = ChatEvent.Error
      { code := ErrorCode.InternalError, message := "No choices in response",
        provider_error_json := none }) ∧
    (∀ choice rest l, r.choices = choice :: rest → choice.message.content = none →
      choice.message.tool_calls = some l → l ≠ [] →
      process_response r = ChatEvent.ToolRequest (l.map convert_tool_call)) ∧
    (∀ choice rest, r.choices = choice :: rest →
      choice.message.content ≠ none ∨ choiceToolCalls choice = [] →
      process_response r = ChatEvent.Message
        { id := r.id, content := choiceContents choice,
          tool_calls := choiceToolCalls choice,
          metadata := responseMetadataOf r choice }) ∧
    (∀ choice rest, r.choices = choice :: rest →
      process_response r = process_response { r with choices := [choice] }) := by
  refine ⟨?_, ?_, ?_, ?_⟩
  · intro h
    simp [process_response, h]
  · intro choice rest l hch hc htc hne
    have hcontents : choiceContents choice = [] := by simp [choiceContents, hc]
    have htcs : choiceToolCalls choice = l.map convert_tool_call := by
      simp [choiceToolCalls, htc]
    have htne : choiceToolCalls choice ≠ [] := by
      rw [htcs]
      simpa using hne
    simp [process_response, hch, hcontents, htne, htcs]
    exact hne
  · intro choice rest hch hcond
    have hneg : ¬ (choiceContents choice = [] ∧ choiceToolCalls choice ≠ []) := by
      rcases hcond with hc | htc
      · intro hand
        cases hx : choice.message.content with
        | none => exact hc hx
        | some c =>
          have h1 := hand.1
          simp [choiceContents, hx] at h1
      · intro hand
        exact hand.2 htc
    simp [process_response, hch, hneg]
  · intro choice rest hch
    simp [process_response, hch, responseMetadataOf]

def c6Resp : Client.CompletionsResponse :=
  { choices := [], created := 3, id := "r", model := "m",
    system_fingerprint := none, usage := none }

theorem c6_witness :
    process_response c6Resp = ChatEvent.Error
      { code := ErrorCode.InternalError, message := "No choices in response",
        provider_error_json := none } :=
  (c6_process_response c6Resp).1 rfl

/-- Claim C7: retry_prompt is deterministic (equal inputs give equal
outputs) and always consists of a fixed two-message preamble, the original
messages verbatim and in order, and exactly one trailing user message built
from the partial deltas. -/
theorem c7_retry_prompt_deterministic
    (m m2 : List Message) (d d2 : List StreamDelta) (h1 : m = m2) (h2 : d = d2) :
    retry_prompt m d = retry_prompt m2 d2 ∧
    retry_prompt m d = (retry_prompt [] d).take 2 ++ m ++ (retry_prompt [] d).drop 2 ∧
    ((retry_prompt [] d).drop 2).length = 1 := by
  subst h1
  subst h2
  refine ⟨rfl, ?_, rfl⟩
  simp [retry_prompt]

theorem c7_witness :
    retry_prompt [] [] = retry_prompt [] [] ∧
    retry_prompt [] [] = (retry_prompt [] []).take 2 ++ [] ++ (retry_prompt [] []).drop 2 ∧
    ((retry_prompt [] []).drop 2).length = 1 :=
  c7_retry_prompt_deterministic [] [] [] [] rfl rfl

theorem convertTools_first_error {V : Type} (P : Parsers V) (pre post : List ToolDefinition)
    (t : ToolDefinition) (e : String)
    (hok : ∀ t2 ∈ pre, ∃ v, P.json t2.parameters_schema = Except.ok v)
    (he : P.json t.parameters_schema = Except.error e) :
    convertTools P (pre ++ t :: post) = Except.error
      { code := ErrorCode.InternalError,
        message := "Failed to parse tool parameters for " ++ t.name ++ ": " ++ e,
        provider_error_json := none } := by
  induction pre with
  | nil =>
    simp [convertTools, tool_definition_to_tool, he]
  | cons t2 rest ih =>
    obtain ⟨v, hv⟩ := hok t2 (List.mem_cons_self _ _)
    have hrest := ih (fun t3 h3 => hok t3 (List.mem_cons_of_mem _ h3))
    simp [convertTools, tool_definition_to_tool, hv, hrest]

/-- Claim C8: a tool definition whose parameters schema fails to parse makes
the request build fail with an error message containing the tool's name and
the parse diagnostic, and the send operation returns that ChatEvent.Error
for every possible network collaborator, i.e. without any network call. -/
theorem c8_bad_tool_schema {V : Type} (P : Parsers V)
    (net : Client.CompletionsRequest V → Except Error Client.CompletionsResponse)
    (messages : List Message) (config : Config)
    (pre post : List ToolDefinition) (t : ToolDefinition) (e : String)
    (hsplit : config.tools = pre ++ t :: post)
    (hok : ∀ t2 ∈ pre, ∃ v, P.json t2.parameters_schema = Except.ok v)
    (he : P.json t.parameters_schema = Except.error e) :
    sendWithKey P net messages config = ChatEvent.Error
      { code := ErrorCode.InternalError,
        message := "Failed to parse tool parameters for " ++ t.name ++ ": " ++ e,
        provider_error_json := none } ∧
    t.name.data <:+: ("Failed to parse tool parameters for " ++ t.name ++ ": " ++ e).data ∧
    e.data <:+: ("Failed to parse tool parameters for " ++ t.name ++ ": " ++ e).data := by
  have hct := convertTools_first_error P pre post t e hok he
  refine ⟨?_, ?_, ?_⟩
  · simp [sendWithKey, create_request, hsplit, hct]
  · refine ⟨"Failed to parse tool parameters for ".data, (": " ++ e).data, ?_⟩
    simp [String.data_append]
  · refine ⟨("Failed to parse tool parameters for " ++ t.name ++ ": ").data, [], ?_⟩
    simp [String.data_append]

def c8Parsers : Parsers Nat :=
  { json := fun _ => Except.error "expected value", f32 := fun _ => none,
    u32 := fun _ => none, u8 := fun _ => none }

def c8Config : Config :=
  { model := "gpt", temperature := none, max_tokens := none, stop_sequences := none,
    tools := [{ name := "tool1", description := none, parameters_schema := "oops" }],
    tool_choice := none, provider_options := [] }

theorem c8_witness :
    sendWithKey c8Parsers (fun _ => Except.error
      { code := ErrorCode.InternalError, message := "no net", provider_error_json := none })
      [] c8Config = ChatEvent.Error
      { code := ErrorCode.InternalError,
        message := "Failed to parse tool parameters for " ++ "tool1" ++ ": " ++ "expected value",
        provider_error_json := none } :=
  (c8_bad_tool_schema c8Parsers _ [] c8Config [] []
    { name := "tool1", description := none, parameters_schema := "oops" } "expected value"
    rfl (by simp) rfl).1

def isOkE {ε α : Type} : Except ε α → Bool
  | Except.ok _ => true
  | Except.error _ => false

def requestMessagesOf {V : Type} :
    Except Error (Client.CompletionsRequest V) → List Client.Message
  | Except.ok request => request.messages
  | Except.error _ => []

/-- Claim C9: a Tool-role message converted through the generic
create_request path always gets the hard-coded placeholder correlation id
unknown and raises no error on that path, while every tool message produced
by tool_results_to_messages carries the real id of its originating tool
call. -/
theorem c9_tool_message_placeholder_id {V : Type} (P : Parsers V)
    (messages : List Message) (config : Config) (m : Message)
    (htools : config.tools = []) (hm : m ∈ messages) (hrole : m.role = Role.Tool) :
    isOkE (create_request P messages config) = true ∧
    requestMessagesOf (create_request P messages config) = messages.map convertMessage ∧
    convertMessage m =
      Client.Message.Tool (convert_content_parts m.content) m.name "unknown" ∧
    Client.Message.Tool (convert_content_parts m.content) m.name "unknown" ∈
      requestMessagesOf (create_request P messages config) ∧
    (∀ (tc : ToolCall) (tr : ToolResult) (rest : List (ToolCall × ToolResult)),
      tool_results_to_messages ((tc, tr) :: rest) =
        Client.Message.Assistant none none
            (some [Client.ToolCall.Function
              { arguments := tc.arguments_json, name := tc.name } tc.id none]) ::
          Client.Message.Tool (Client.Content.List [toolResultContent tr]) none tc.id ::
          tool_results_to_messages rest) := by
  have hmsg : convertMessage m =
      Client.Message.Tool (convert_content_parts m.content) m.name "unknown" := by
    simp [convertMessage, hrole]
  have hreq : requestMessagesOf (create_request P messages config) =
      messages.map convertMessage := by
    simp [create_request, htools, convertTools, requestMessagesOf]
  refine ⟨?_, hreq, hmsg, ?_, ?_⟩
  · simp [create_request, htools, convertTools, isOkE]
  · rw [hreq, ← hmsg]
    exact List.mem_map_of_mem _ hm
  · intro tc tr rest
    rfl

theorem c9_witness :
    convertMessage { role := Role.Tool, name := none, content := [ContentPart.Text "out"] } =
      Client.Message.Tool
        (convert_content_parts [ContentPart.Text "out"]) none "unknown" :=
  (c9_tool_message_placeholder_id c8Parsers
    [{ role := Role.Tool, name := none, content := [ContentPart.Text "out"] }]
    { model := "gpt", temperature := none, max_tokens := none, stop_sequences := none,
      tools := [], tool_choice := none, provider_options := [] }
    { role := Role.Tool, name := none, content := [ContentPart.Text "out"] }
    rfl (List.mem_singleton.mpr rfl) rfl).2.2.1

theorem base64Chars_length (bytes : List Nat) :
    (base64Chars bytes).length = 4 * ((bytes.length + 2) / 3) := by
  induction bytes using base64Chars.induct with
  | case1 => rfl
  | case2 b1 => simp [base64Chars]
  | case3 b1 b2 => simp [base64Chars]
  | case4 b1 b2 b3 rest ih =>
    simp only [base64Chars, List.length_cons, ih]
    have h3 : (0 : Nat) < 3 := by norm_num
    have hlen : rest.length + 1 + 1 + 1 + 2 = rest.length + 2 + 3 := by omega
    rw [hlen, Nat.add_div_right _ h3]
    ring

/-- Claim C10: an Inline image content part becomes an image-URL part whose
url is exactly the data: scheme, the mime type, the ;base64, separator and
the standard base64 encoding of the raw bytes, with the detail hint
preserved; Url image parts pass through unchanged; the embedded base64 is
RFC 4648 standard encoding with padding, checked on its test vectors and a
length invariant. -/
theorem c10_inline_image_data_url (contents : List ContentPart) :
    convert_content_parts contents = Client.Content.List (contents.map convertPart) ∧
    (∀ src : ImageSource, convertPart (ContentPart.Image (ImageReference.Inline src)) =
      Client.ContentPart.ImageInput
        { url := "data:" ++ src.mime_type ++ ";base64," ++ base64Encode src.data,
          detail := src.detail.map detailFromImageDetail }) ∧
    (∀ u : ImageUrlRef, convertPart (ContentPart.Image (ImageReference.Url u)) =
      Client.ContentPart.ImageInput
        { url := u.url, detail := u.detail.map detailFromImageDetail }) ∧
    (∀ bytes : List Nat, (base64Chars bytes).length = 4 * ((bytes.length + 2) / 3)) ∧
    base64Encode [] = "" ∧ base64Encode [102] = "Zg==" ∧
    base64Encode [102, 111] = "Zm8=" ∧ base64Encode [102, 111, 111] = "Zm9v" ∧
    base64Encode [102, 111, 111, 98] = "Zm9vYg==" ∧
    base64Encode [102, 111, 111, 98, 97] = "Zm9vYmE=" ∧
    base64Encode [102, 111, 111, 98, 97, 114] = "Zm9vYmFy" :=
  ⟨rfl, fun _ => rfl, fun _ => rfl, base64Chars_length,
    by decide, by decide, by decide, by decide, by decide, by decide, by decide⟩
